import Mathlib

/-
Shallow embedding of the growth-stock portfolio allocator
(files portfolio.py and stock.py of the repository).

Numeric model: the Python code computes with IEEE doubles (numpy
float64).  The embedding carries exact rationals for all finite values
and models the non-finite values that the claims depend on (division by
zero producing infinities, 0/0 producing NaN, NaN skipping in the
pandas column mean) with an explicit four-valued type `F`.  Rounding is
idealised away: arithmetic on finite values is exact.  Negative zero is
not modelled; a zero produced by exact cancellation is the plain
rational 0, and dividing a nonzero finite value by it yields the
infinity of the numerator sign, as numpy does for +0.0 denominators.

Randomness: `np.random.normal` draws are abstracted as explicit inputs
(a `Draw` per stock per trial); every claim about `roll_once` is stated
for the given drawn values, exactly as the spec phrases them.
-/

namespace GrowthAlloc

/-- Model of a numpy float64 value: an exact finite rational, one of the
two infinities, or NaN. -/
inductive F where
  | fin (q : ℚ)
  | pinf
  | ninf
  | nan
deriving DecidableEq, Repr

namespace F

/-- Whether the value is NaN (used to model the skipna behaviour of the
pandas column mean). -/
def isNan : F → Bool
  | nan => true
  | _ => false

/-- Whether the value is a finite number. -/
def isFin : F → Bool
  | fin _ => true
  | _ => false

/-- Addition, with IEEE propagation of NaN and infinities. -/
def add : F → F → F
  | nan, _ => nan
  | fin a, fin b => fin (a + b)
  | fin _, pinf => pinf
  | fin _, ninf => ninf
  | fin _, nan => nan
  | pinf, fin _ => pinf
  | pinf, pinf => pinf
  | pinf, ninf => nan
  | pinf, nan => nan
  | ninf, fin _ => ninf
  | ninf, pinf => nan
  | ninf, ninf => ninf
  | ninf, nan => nan

/-- Subtraction, with IEEE propagation of NaN and infinities. -/
def sub : F → F → F
  | nan, _ => nan
  | fin a, fin b => fin (a - b)
  | fin _, pinf => ninf
  | fin _, ninf => pinf
  | fin _, nan => nan
  | pinf, fin _ => pinf
  | pinf, pinf => nan
  | pinf, ninf => pinf
  | pinf, nan => nan
  | ninf, fin _ => ninf
  | ninf, pinf => ninf
  | ninf, ninf => nan
  | ninf, nan => nan

/-- Multiplication, with IEEE propagation: infinity times zero is NaN,
otherwise signs combine. -/
def mul : F → F → F
  | nan, _ => nan
  | fin a, fin b => fin (a * b)
  | fin a, pinf => if 0 < a then pinf else if a < 0 then ninf else nan
  | fin a, ninf => if 0 < a then ninf else if a < 0 then pinf else nan
  | fin _, nan => nan
  | pinf, fin b => if 0 < b then pinf else if b < 0 then ninf else nan
  | pinf, pinf => pinf
  | pinf, ninf => ninf
  | pinf, nan => nan
  | ninf, fin b => if 0 < b then ninf else if b < 0 then pinf else nan
  | ninf, pinf => ninf
  | ninf, ninf => pinf
  | ninf, nan => nan

/-- Division, with IEEE propagation: a nonzero finite value divided by
zero is a signed infinity, 0/0 is NaN, infinity over infinity is NaN. -/
def div : F → F → F
  | nan, _ => nan
  | fin a, fin b =>
      if b = 0 then (if a = 0 then nan else if 0 < a then pinf else ninf)
      else fin (a / b)
  | fin _, pinf => fin 0
  | fin _, ninf => fin 0
  | fin _, nan => nan
  | pinf, fin b => if b < 0 then ninf else pinf
  | pinf, pinf => nan
  | pinf, ninf => nan
  | pinf, nan => nan
  | ninf, fin b => if b < 0 then pinf else ninf
  | ninf, pinf => nan
  | ninf, ninf => nan
  | ninf, nan => nan

end F

/-- The fields a `Stock` object holds after `__init__` has scaled the
spreadsheet row (percentages already divided by 100, million-unit
figures already multiplied by 1e6).  Identity and qualitative fields
(name, industry, moat ratings) are omitted: no computation reads them. -/
structure Stock where
  us_equities_exp_real_return_10y : ℚ
  us_treasury_note_risk_free_yield_10y : ℚ
  beta : ℚ
  common_shares_outstanding : ℚ
  tax_rate : ℚ
  long_term_interest_payment : ℚ
  long_term_debt_balance : ℚ
  preferred_dividend : ℚ
  preferred_stock : ℚ
  vl_cash_flow_per_share : ℚ
  vl_earnings_predictability : ℚ
  vl_return_on_total_capital : ℚ
  vl_retained_earnings_plowback_ratio : ℚ
  price : ℚ
deriving DecidableEq, Repr

namespace Stock

/-- Stock._derive_distributions: standard deviation of cash flow per
share. -/
def vl_cash_flow_per_share_std_dev (s : Stock) : ℚ :=
  (0.50 - 0.45 * s.vl_earnings_predictability) * s.vl_cash_flow_per_share

/-- Stock._derive_distributions: standard deviation of return on total
capital. -/
def vl_return_on_total_capital_std_dev (s : Stock) : ℚ :=
  (0.50 - 0.45 * s.vl_earnings_predictability) * s.vl_return_on_total_capital

/-- Stock._derive_distributions: standard deviation of the plowback
ratio. -/
def vl_retained_earnings_plowback_ratio_std_dev (s : Stock) : ℚ :=
  (0.50 - 0.45 * s.vl_earnings_predictability) * s.vl_retained_earnings_plowback_ratio

/-- The local variable after_tax_historical_cost_of_debt of
Stock._calculate_wacc: zero unless the debt balance is positive. -/
def after_tax_historical_cost_of_debt (s : Stock) : ℚ :=
  if 0 < s.long_term_debt_balance then
    (s.long_term_interest_payment / s.long_term_debt_balance) * (1 - s.tax_rate)
  else 0

/-- The local variable cost_of_preferred_equity of
Stock._calculate_wacc: zero unless the preferred stock balance is
positive. -/
def cost_of_preferred_equity (s : Stock) : ℚ :=
  if 0 < s.preferred_stock then s.preferred_dividend / s.preferred_stock else 0

/-- The local variable cost_of_equity of Stock._calculate_wacc (CAPM). -/
def cost_of_equity (s : Stock) : ℚ :=
  s.us_treasury_note_risk_free_yield_10y + s.beta * s.us_equities_exp_real_return_10y

/-- The local variable total_capital of Stock._calculate_wacc. -/
def total_capital (s : Stock) : ℚ :=
  s.long_term_debt_balance + s.preferred_stock + s.common_shares_outstanding * s.price

/-- Stock._calculate_wacc: the stored weighted average cost of capital.
The final division is unguarded in the source, so the result is an `F`:
non-finite when total capital is zero. -/
def weighted_average_cost_of_capital (s : Stock) : F :=
  F.div
    (F.fin (s.after_tax_historical_cost_of_debt * s.long_term_debt_balance
      + s.cost_of_preferred_equity * s.preferred_stock
      + s.cost_of_equity * s.common_shares_outstanding * s.price))
    (F.fin s.total_capital)

end Stock

/-- np.clip(x, lo, hi) on finite arguments. -/
def np_clip (x lo hi : ℚ) : ℚ := min (max x lo) hi

/-- The three values np.random.normal returns inside one call of
Stock.roll_once, abstracted as inputs. -/
structure Draw where
  rotc : ℚ
  plowback_ratio : ℚ
  cash_flow : ℚ
deriving DecidableEq, Repr

namespace Stock

/-- Stock.roll_once for the given drawn values: clamp the plowback draw
into the unit interval, form the growth rate from the excess return
over WACC, the price-to-cash-flow multiple, and their ratio. -/
def roll_once (s : Stock) (d : Draw) : F × F × F :=
  let plowback := np_clip d.plowback_ratio 0 1
  let excess_return_on_total_capital :=
    F.sub (F.fin d.rotc) s.weighted_average_cost_of_capital
  let operating_profit_growth_rate :=
    F.mul (F.mul (F.fin 100) excess_return_on_total_capital) (F.fin plowback)
  let price_to_cash_flow := F.div (F.fin s.price) (F.fin d.cash_flow)
  let ratio := F.div operating_profit_growth_rate price_to_cash_flow
  (operating_profit_growth_rate, price_to_cash_flow, ratio)

end Stock

/-- Portfolio state: the ordered stock mapping given to __init__ (a
Python dict preserves insertion order), the trial matrix, and the mean
allocation vector.  The latter two are absent until allocate runs
(allocation_trials does not exist before the first call;
mean_allocations is initialised to None). -/
structure Portfolio where
  stocks : List (String × Stock)
  allocation_trials : Option (List (List F))
  mean_allocations : Option (List F)
deriving Repr

namespace Portfolio

/-- Portfolio.__init__. -/
def init (stocks : List (String × Stock)) : Portfolio :=
  { stocks := stocks, allocation_trials := none, mean_allocations := none }

/-- The ratios dictionary built by the first loop of
Portfolio._allocate_once: one value_ratio per stock, in stock order,
from the drawn values of this trial. -/
def trial_ratios (stocks : List (String × Stock)) (draws : List Draw) : List F :=
  List.zipWith (fun sd d => ((Prod.snd sd).roll_once d).2.2) stocks draws

/-- np.sum over a list of float values, left to right from 0. -/
def np_sum (xs : List F) : F := xs.foldl F.add (F.fin 0)

/-- Portfolio._allocate_once for the given drawn values: one weight per
stock, each the ratio of that stock divided by the sum of all ratios. -/
def allocate_once (stocks : List (String × Stock)) (draws : List Draw) : List F :=
  let ratios := trial_ratios stocks draws
  let sum_ratios := np_sum ratios
  ratios.map (fun r => F.div r sum_ratios)

/-- The pandas column mean with its default skipna behaviour: NaN
entries are dropped, the rest are summed and divided by their count;
the mean of an empty column is NaN.  Infinities are not dropped. -/
def np_mean_col (col : List F) : F :=
  let xs := col.filter (fun x => !x.isNan)
  if xs.length = 0 then F.nan
  else F.div (np_sum xs) (F.fin (xs.length : ℚ))

/-- Column j of the trial matrix. -/
def column (trials : List (List F)) (j : ℕ) : List F :=
  trials.map (fun row => row.getD j F.nan)

/-- Portfolio.allocate for the given drawn values, one inner list per
trial: rebuild the trial matrix from scratch (one row per trial, one
column per stock) and store the column-wise mean vector. -/
def allocate (p : Portfolio) (trial_draws : List (List Draw)) : Portfolio :=
  let trials := trial_draws.map (allocate_once p.stocks)
  let means := (List.range p.stocks.length).map
    (fun j => np_mean_col (column trials j))
  { stocks := p.stocks, allocation_trials := some trials,
    mean_allocations := some means }

end Portfolio

/-! Helper lemmas about the float-value model. -/

/-- Division of finite values with a nonzero denominator is exact
rational division. -/
theorem F.div_fin_fin (a b : ℚ) (hb : b ≠ 0) :
    F.div (F.fin a) (F.fin b) = F.fin (a / b) := by
  simp [F.div, hb]

/-- Summing a list of finite values is the finite rational sum. -/
theorem np_sum_fin_aux (rs : List ℚ) (a : ℚ) :
    (rs.map F.fin).foldl F.add (F.fin a) = F.fin (a + rs.sum) := by
  induction rs generalizing a with
  | nil => simp
  | cons r t ih =>
      simp only [List.map_cons, List.foldl_cons, F.add, List.sum_cons]
      rw [ih (a + r)]
      ring_nf

/-- np.sum over finite values. -/
theorem np_sum_map_fin (rs : List ℚ) :
    Portfolio.np_sum (rs.map F.fin) = F.fin rs.sum := by
  unfold Portfolio.np_sum
  rw [np_sum_fin_aux]
  ring_nf

/-- Dividing every element of a rational list by a constant divides the
sum. -/
theorem sum_map_div (rs : List ℚ) (c : ℚ) :
    (rs.map (fun r => r / c)).sum = rs.sum / c := by
  induction rs with
  | nil => simp
  | cons r t ih => simp [ih, add_div]

/-! Concrete inputs used by the witness theorems. -/

/-- A stock with unit share count and price, no debt, no preferred
stock, zero market rates, full earnings predictability: its WACC is the
finite value 0. -/
def sA : Stock :=
  ⟨0, 0, 0, 1, 0, 0, 0, 0, 0, 1, 1, 0, 1, 1⟩

/-- A stock carrying debt and preferred stock, for the WACC witnesses:
debt balance 100, interest 10, tax rate 1/4, preferred balance 50,
preferred dividend 5, 2 shares at price 25. -/
def sB : Stock :=
  ⟨0.05, 0.02, 2, 2, 0.25, 10, 100, 5, 50, 3, 0.5, 0.1, 0.6, 25⟩

/-- A draw with unit return on total capital, plowback inside the unit
interval, and unit cash flow. -/
def dUnit : Draw := ⟨1, 1, 1⟩

/-! Claim theorems. -/

/-- The dispersion factor of the spec: the coefficient
0.50 - 0.45 x earnings predictability that scales every mean into its
standard deviation. -/
def dispersion_factor (s : Stock) : ℚ :=
  0.50 - 0.45 * s.vl_earnings_predictability

/-- Claim C5: each of the three standard deviations derived at
construction equals the dispersion factor times the corresponding mean,
and the factor is exactly 0.05 at earnings predictability 1 and exactly
0.50 at earnings predictability 0. -/
theorem C5_std_dev_scaling (s : Stock) :
    s.vl_cash_flow_per_share_std_dev = dispersion_factor s * s.vl_cash_flow_per_share
    ∧ s.vl_return_on_total_capital_std_dev
        = dispersion_factor s * s.vl_return_on_total_capital
    ∧ s.vl_retained_earnings_plowback_ratio_std_dev
        = dispersion_factor s * s.vl_retained_earnings_plowback_ratio
    ∧ (s.vl_earnings_predictability = 1 → dispersion_factor s = 0.05)
    ∧ (s.vl_earnings_predictability = 0 → dispersion_factor s = 0.50) := by
  refine ⟨rfl, rfl, rfl, ?_, ?_⟩ <;>
    · intro h
      unfold dispersion_factor
      rw [h]
      norm_num

/-- Witness for C5 at the concrete stock sA, whose earnings
predictability is 1. -/
theorem C5_std_dev_scaling_witness :
    sA.vl_cash_flow_per_share_std_dev = dispersion_factor sA * sA.vl_cash_flow_per_share
    ∧ dispersion_factor sA = 0.05 :=
  ⟨(C5_std_dev_scaling sA).1, (C5_std_dev_scaling sA).2.2.2.1 rfl⟩

/-- Claim C8: the two guarded divisions of the WACC computation: a
nonpositive debt balance makes the after-tax cost of debt 0 without
dividing, and a nonpositive preferred stock balance makes the cost of
preferred equity 0 without dividing. -/
theorem C8_division_guards (s : Stock) :
    (s.long_term_debt_balance ≤ 0 → s.after_tax_historical_cost_of_debt = 0)
    ∧ (s.preferred_stock ≤ 0 → s.cost_of_preferred_equity = 0) := by
  constructor <;> intro h
  · unfold Stock.after_tax_historical_cost_of_debt
    rw [if_neg (not_lt.mpr h)]
  · unfold Stock.cost_of_preferred_equity
    rw [if_neg (not_lt.mpr h)]

/-- Witness for C8 at the concrete stock sA, which has zero debt and
zero preferred stock. -/
theorem C8_division_guards_witness :
    sA.after_tax_historical_cost_of_debt = 0 ∧ sA.cost_of_preferred_equity = 0 :=
  ⟨(C8_division_guards sA).1 (by norm_num [sA]), (C8_division_guards sA).2 (by norm_num [sA])⟩

/-- Claim C3: with positive total capital, the WACC stored at
construction is the capital-weighted average of the after-tax cost of
debt, the cost of preferred equity, and the CAPM cost of equity. -/
theorem C3_wacc_formula (s : Stock) (h : 0 < s.total_capital) :
    s.weighted_average_cost_of_capital = F.fin
      ((s.after_tax_historical_cost_of_debt * s.long_term_debt_balance
        + s.cost_of_preferred_equity * s.preferred_stock
        + (s.us_treasury_note_risk_free_yield_10y
            + s.beta * s.us_equities_exp_real_return_10y)
          * (s.common_shares_outstanding * s.price))
       / (s.long_term_debt_balance + s.preferred_stock
            + s.common_shares_outstanding * s.price)) := by
  have hne : s.total_capital ≠ 0 := ne_of_gt h
  unfold Stock.weighted_average_cost_of_capital
  rw [F.div_fin_fin _ _ hne]
  unfold Stock.total_capital Stock.cost_of_equity
  congr 1
  ring

/-- Witness for C3 at the concrete stock sB, whose total capital is
positive. -/
theorem C3_wacc_formula_witness :
    sB.weighted_average_cost_of_capital = F.fin
      ((sB.after_tax_historical_cost_of_debt * sB.long_term_debt_balance
        + sB.cost_of_preferred_equity * sB.preferred_stock
        + (sB.us_treasury_note_risk_free_yield_10y
            + sB.beta * sB.us_equities_exp_real_return_10y)
          * (sB.common_shares_outstanding * sB.price))
       / (sB.long_term_debt_balance + sB.preferred_stock
            + sB.common_shares_outstanding * sB.price)) :=
  C3_wacc_formula sB (by norm_num [sB, Stock.total_capital])

/-- Claim C7: with zero debt and zero preferred stock (and positive
share count and price), the WACC reduces to the CAPM cost of equity. -/
theorem C7_wacc_zero_debt (s : Stock)
    (hd : s.long_term_debt_balance = 0) (hp : s.preferred_stock = 0)
    (hs : 0 < s.common_shares_outstanding) (hpr : 0 < s.price) :
    s.weighted_average_cost_of_capital = F.fin
      (s.us_treasury_note_risk_free_yield_10y
        + s.beta * s.us_equities_exp_real_return_10y) := by
  have hne : s.common_shares_outstanding * s.price ≠ 0 :=
    mul_ne_zero (ne_of_gt hs) (ne_of_gt hpr)
  have ht : s.total_capital = s.common_shares_outstanding * s.price := by
    unfold Stock.total_capital
    rw [hd, hp]
    ring
  unfold Stock.weighted_average_cost_of_capital
  rw [ht, F.div_fin_fin _ _ hne, hd, hp]
  unfold Stock.cost_of_equity
  congr 1
  field_simp
  ring

/-- Witness for C7 at the concrete stock sA, which has no debt and no
preferred stock. -/
theorem C7_wacc_zero_debt_witness :
    sA.weighted_average_cost_of_capital = F.fin
      (sA.us_treasury_note_risk_free_yield_10y
        + sA.beta * sA.us_equities_exp_real_return_10y) :=
  C7_wacc_zero_debt sA (by norm_num [sA]) (by norm_num [sA]) (by norm_num [sA]) (by norm_num [sA])

/-- Claim C6: when the WACC is the finite value w, the growth-rate
component returned by roll_once uses the drawn plowback clamped into
the unit interval: 0 below 0, 1 above 1, the drawn value itself in
between. -/
theorem C6_plowback_clamp (s : Stock) (d : Draw) (w : ℚ)
    (hw : s.weighted_average_cost_of_capital = F.fin w) :
    (s.roll_once d).1 = F.fin (100 * (d.rotc - w) * np_clip d.plowback_ratio 0 1)
    ∧ (d.plowback_ratio < 0 → np_clip d.plowback_ratio 0 1 = 0)
    ∧ (1 < d.plowback_ratio → np_clip d.plowback_ratio 0 1 = 1)
    ∧ (0 ≤ d.plowback_ratio → d.plowback_ratio ≤ 1 →
        np_clip d.plowback_ratio 0 1 = d.plowback_ratio) := by
  refine ⟨?_, ?_, ?_, ?_⟩
  · unfold Stock.roll_once
    rw [hw]
    simp [F.sub, F.mul]
  · intro h
    unfold np_clip
    rw [max_eq_right h.le, min_eq_left (by norm_num)]
  · intro h
    unfold np_clip
    rw [max_eq_left (lt_trans one_pos h).le, min_eq_right h.le]
  · intro h0 h1
    unfold np_clip
    rw [max_eq_left h0, min_eq_left h1]

/-- A draw whose plowback component is negative, for the clamping
witness. -/
def dNegPb : Draw := ⟨1, -0.5, 1⟩

/-- Witness for C6 at the concrete stock sA (WACC 0) and a drawn
plowback of -1/2, which clamps to 0. -/
theorem C6_plowback_clamp_witness :
    (sA.roll_once dNegPb).1
      = F.fin (100 * (dNegPb.rotc - 0) * np_clip dNegPb.plowback_ratio 0 1)
    ∧ np_clip dNegPb.plowback_ratio 0 1 = 0 :=
  ⟨(C6_plowback_clamp sA dNegPb 0 (by norm_num [sA, Stock.weighted_average_cost_of_capital,
      Stock.after_tax_historical_cost_of_debt, Stock.cost_of_preferred_equity,
      Stock.cost_of_equity, Stock.total_capital, F.div])).1,
   (C6_plowback_clamp sA dNegPb 0 (by norm_num [sA, Stock.weighted_average_cost_of_capital,
      Stock.after_tax_historical_cost_of_debt, Stock.cost_of_preferred_equity,
      Stock.cost_of_equity, Stock.total_capital, F.div])).2.1 (by norm_num [dNegPb])⟩

/-- Claim C4: when the WACC is the finite value w, the drawn cash flow
is nonzero (negative allowed) and the price is nonzero, roll_once
returns exactly the triple growth rate
100 x (rotc - WACC) x clamped plowback, valuation multiple
price / cash flow, and value ratio growth rate / valuation multiple. -/
theorem C4_roll_once_formulas (s : Stock) (d : Draw) (w : ℚ)
    (hw : s.weighted_average_cost_of_capital = F.fin w)
    (hcf : d.cash_flow ≠ 0) (hpr : s.price ≠ 0) :
    s.roll_once d =
      (F.fin (100 * (d.rotc - w) * np_clip d.plowback_ratio 0 1),
       F.fin (s.price / d.cash_flow),
       F.fin ((100 * (d.rotc - w) * np_clip d.plowback_ratio 0 1)
         / (s.price / d.cash_flow))) := by
  have hvm : s.price / d.cash_flow ≠ 0 := div_ne_zero hpr hcf
  unfold Stock.roll_once
  rw [hw]
  simp only [F.sub, F.mul]
  rw [F.div_fin_fin _ _ hcf, F.div_fin_fin _ _ hvm]

/-- A draw with a negative cash flow, witnessing that roll_once treats
negative cash flow like any other value. -/
def dNegCf : Draw := ⟨1, 2, -1⟩

/-- Witness for C4 at the concrete stock sA (WACC 0) and a draw with
cash flow -1: the valuation multiple and value ratio are the finite
values the formulas give, with no special-casing of the negative cash
flow. -/
theorem C4_roll_once_formulas_witness :
    sA.roll_once dNegCf =
      (F.fin (100 * (dNegCf.rotc - 0) * np_clip dNegCf.plowback_ratio 0 1),
       F.fin (sA.price / dNegCf.cash_flow),
       F.fin ((100 * (dNegCf.rotc - 0) * np_clip dNegCf.plowback_ratio 0 1)
         / (sA.price / dNegCf.cash_flow))) :=
  C4_roll_once_formulas sA dNegCf 0
    (by norm_num [sA, Stock.weighted_average_cost_of_capital,
      Stock.after_tax_historical_cost_of_debt, Stock.cost_of_preferred_equity,
      Stock.cost_of_equity, Stock.total_capital, F.div])
    (by norm_num [dNegCf]) (by norm_num [sA])

/-- Claim C1: in a trial whose per-stock value ratios are the finite
values rs with nonzero sum, the weight row _allocate_once produces is
exactly each ratio divided by the sum, and those weights sum to 1. -/
theorem C1_per_trial_normalization (stocks : List (String × Stock))
    (draws : List Draw) (rs : List ℚ)
    (hr : Portfolio.trial_ratios stocks draws = rs.map F.fin)
    (hs : rs.sum ≠ 0) :
    Portfolio.allocate_once stocks draws = (rs.map (fun r => r / rs.sum)).map F.fin
    ∧ (rs.map (fun r => r / rs.sum)).sum = 1 := by
  constructor
  · unfold Portfolio.allocate_once
    rw [hr]
    simp only [np_sum_map_fin, List.map_map]
    apply List.map_congr_left
    intro q _
    exact F.div_fin_fin q rs.sum hs
  · rw [sum_map_div, div_self hs]

/-- A two-stock portfolio mapping used by the portfolio-level
witnesses. -/
def stocksW : List (String × Stock) := [("A", sA), ("B", sA)]

/-- Witness for C1: both stocks draw ratio 100, so both weights are the
finite value 1/2 and the row sums to 1. -/
theorem C1_per_trial_normalization_witness :
    Portfolio.allocate_once stocksW [dUnit, dUnit]
      = ([(100:ℚ), 100].map (fun r => r / [(100:ℚ), 100].sum)).map F.fin
    ∧ ([(100:ℚ), 100].map (fun r => r / [(100:ℚ), 100].sum)).sum = 1 :=
  C1_per_trial_normalization stocksW [dUnit, dUnit] [100, 100]
    (by norm_num [stocksW, Portfolio.trial_ratios, Stock.roll_once, sA, dUnit,
      F.sub, F.mul, F.div, Stock.weighted_average_cost_of_capital,
      Stock.after_tax_historical_cost_of_debt, Stock.cost_of_preferred_equity,
      Stock.cost_of_equity, Stock.total_capital, np_clip])
    (by norm_num)

/-- Claim C9: allocate leaves the stock mapping (and hence every stored
stock field) unchanged, overwrites the trial matrix and the mean vector
with values recomputed from the stocks and the draws alone, and two
portfolios with the same stocks but different prior results produce
identical states: prior results are discarded. -/
theorem C9_allocate_frame (p q : Portfolio) (ds : List (List Draw))
    (h : q.stocks = p.stocks) :
    (p.allocate ds).stocks = p.stocks
    ∧ (p.allocate ds).allocation_trials
        = some (ds.map (Portfolio.allocate_once p.stocks))
    ∧ (p.allocate ds).mean_allocations
        = some ((List.range p.stocks.length).map (fun j =>
            Portfolio.np_mean_col
              (Portfolio.column (ds.map (Portfolio.allocate_once p.stocks)) j)))
    ∧ q.allocate ds = p.allocate ds := by
  refine ⟨rfl, rfl, rfl, ?_⟩
  unfold Portfolio.allocate
  rw [h]

/-- A portfolio over stocksW carrying stale results from a previous
run. -/
def pStale : Portfolio :=
  { stocks := stocksW, allocation_trials := some [[F.nan, F.nan]],
    mean_allocations := some [F.nan, F.nan] }

/-- Witness for C9: running allocate on the freshly initialised
portfolio and on the stale one gives identical states. -/
theorem C9_allocate_frame_witness :
    ((Portfolio.init stocksW).allocate [[dUnit, dUnit]]).stocks
        = (Portfolio.init stocksW).stocks
    ∧ ((Portfolio.init stocksW).allocate [[dUnit, dUnit]]).allocation_trials
        = some ([[dUnit, dUnit]].map
            (Portfolio.allocate_once (Portfolio.init stocksW).stocks))
    ∧ ((Portfolio.init stocksW).allocate [[dUnit, dUnit]]).mean_allocations
        = some ((List.range (Portfolio.init stocksW).stocks.length).map (fun j =>
            Portfolio.np_mean_col
              (Portfolio.column ([[dUnit, dUnit]].map
                (Portfolio.allocate_once (Portfolio.init stocksW).stocks)) j)))
    ∧ pStale.allocate [[dUnit, dUnit]]
        = (Portfolio.init stocksW).allocate [[dUnit, dUnit]] :=
  C9_allocate_frame (Portfolio.init stocksW) pStale [[dUnit, dUnit]] rfl

/-- Claim C10: allocate with zero iterations on a portfolio holding at
least one stock terminates with an empty trial matrix and a mean vector
holding NaN for every stock. -/
theorem C10_zero_iterations (p : Portfolio) (h : 0 < p.stocks.length) :
    (p.allocate []).allocation_trials = some []
    ∧ ∃ ms, (p.allocate []).mean_allocations = some ms
        ∧ ms.length = p.stocks.length
        ∧ ∀ m ∈ ms, m = F.nan := by
  refine ⟨rfl, (List.range p.stocks.length).map
    (fun j => Portfolio.np_mean_col (Portfolio.column [] j)), rfl, by simp, ?_⟩
  intro m hm
  simp only [List.mem_map, List.mem_range] at hm
  obtain ⟨j, _, rfl⟩ := hm
  rfl

/-- Witness for C10 on the two-stock portfolio. -/
theorem C10_zero_iterations_witness :
    ((Portfolio.init stocksW).allocate []).allocation_trials = some []
    ∧ ∃ ms, ((Portfolio.init stocksW).allocate []).mean_allocations = some ms
        ∧ ms.length = (Portfolio.init stocksW).stocks.length
        ∧ ∀ m ∈ ms, m = F.nan :=
  C10_zero_iterations (Portfolio.init stocksW)
    (by norm_num [Portfolio.init, stocksW])

/-! Lemmas about non-finite propagation, used for the degenerate-trial
claim. -/

/-- Adding anything to a non-finite accumulator never gives a finite
value. -/
theorem F.add_not_fin_left (a b : F) (h : a.isFin = false) :
    (F.add a b).isFin = false := by
  cases a <;> cases b <;> simp_all [F.add, F.isFin]

/-- Adding a non-finite value to anything never gives a finite value. -/
theorem F.add_not_fin_right (a b : F) (h : b.isFin = false) :
    (F.add a b).isFin = false := by
  cases a <;> cases b <;> simp_all [F.add, F.isFin]

/-- A fold of additions that starts non-finite stays non-finite. -/
theorem foldl_add_not_fin_acc (xs : List F) (a : F) (h : a.isFin = false) :
    (xs.foldl F.add a).isFin = false := by
  induction xs generalizing a with
  | nil => exact h
  | cons x t ih => exact ih _ (F.add_not_fin_left a x h)

/-- A fold of additions over a list containing a non-finite value is
non-finite. -/
theorem foldl_add_not_fin (xs : List F) (a : F)
    (h : ∃ x ∈ xs, x.isFin = false) :
    (xs.foldl F.add a).isFin = false := by
  induction xs generalizing a with
  | nil => simp at h
  | cons x t ih =>
      obtain ⟨y, hy, hyf⟩ := h
      rcases List.mem_cons.mp hy with rfl | hy
      · exact foldl_add_not_fin_acc t _ (F.add_not_fin_right a y hyf)
      · exact ih _ ⟨y, hy, hyf⟩

/-- Dividing a non-finite value by a finite one never gives a finite
value. -/
theorem F.div_not_fin_num (a : F) (c : ℚ) (h : a.isFin = false) :
    (F.div a (F.fin c)).isFin = false := by
  cases a with
  | fin q => simp [F.isFin] at h
  | pinf =>
      simp only [F.div]
      split_ifs <;> rfl
  | ninf =>
      simp only [F.div]
      split_ifs <;> rfl
  | nan => rfl

/-- Dividing a nonzero finite value by the finite zero gives a signed
infinity: not finite and not NaN. -/
theorem F.div_fin_zero_inf (q : ℚ) (hq : q ≠ 0) :
    (F.div (F.fin q) (F.fin 0)).isFin = false
    ∧ (F.div (F.fin q) (F.fin 0)).isNan = false := by
  simp only [F.div, if_pos rfl, if_neg hq]
  split_ifs <;> exact ⟨rfl, rfl⟩

/-- The pandas column mean of a column containing an infinity is not
finite: skipna removes only NaN entries, so the infinity reaches the
sum. -/
theorem np_mean_col_not_fin (col : List F)
    (h : ∃ x ∈ col, x.isFin = false ∧ x.isNan = false) :
    (Portfolio.np_mean_col col).isFin = false := by
  obtain ⟨x, hx, hxf, hxn⟩ := h
  have hmem : x ∈ col.filter (fun y => !y.isNan) := by
    simp [List.mem_filter, hx, hxn]
  simp only [Portfolio.np_mean_col]
  have hne : ¬ (col.filter (fun y => !y.isNan)).length = 0 := by
    intro h0
    rw [List.length_eq_zero] at h0
    rw [h0] at hmem
    simp at hmem
  rw [if_neg hne]
  apply F.div_not_fin_num
  exact foldl_add_not_fin _ _ ⟨x, hmem, hxf⟩

/-- The mean vector allocate stores, written out. -/
theorem allocate_mean_eq (p : Portfolio) (ds : List (List Draw)) :
    (p.allocate ds).mean_allocations
      = some ((List.range p.stocks.length).map (fun j =>
          Portfolio.np_mean_col
            (Portfolio.column (ds.map (Portfolio.allocate_once p.stocks)) j))) := rfl

/-- Claim C2: a trial whose finite nonzero value ratios sum to 0 raises
nothing: every weight in that row is a signed infinity (non-finite and
not NaN), and every entry of the mean vector allocate computes over any
trial list containing that trial is non-finite — the degeneracy
propagates into the mean. -/
theorem C2_degenerate_trial (stocks : List (String × Stock))
    (draws : List Draw) (rs : List ℚ) (trial_draws : List (List Draw))
    (hlen : draws.length = stocks.length)
    (hr : Portfolio.trial_ratios stocks draws = rs.map F.fin)
    (hsum : rs.sum = 0) (hnz : ∀ r ∈ rs, r ≠ 0)
    (hmem : draws ∈ trial_draws) :
    (∀ w ∈ Portfolio.allocate_once stocks draws,
      w.isFin = false ∧ w.isNan = false)
    ∧ ∃ ms, ((Portfolio.init stocks).allocate trial_draws).mean_allocations
          = some ms
        ∧ ms.length = stocks.length
        ∧ ∀ m ∈ ms, m.isFin = false := by
  have hrow : Portfolio.allocate_once stocks draws
      = rs.map (fun q => F.div (F.fin q) (F.fin 0)) := by
    unfold Portfolio.allocate_once
    rw [hr]
    simp only [np_sum_map_fin, hsum, List.map_map]
    rfl
  have hweights : ∀ w ∈ Portfolio.allocate_once stocks draws,
      w.isFin = false ∧ w.isNan = false := by
    intro w hw
    rw [hrow] at hw
    obtain ⟨q, hq, rfl⟩ := List.mem_map.mp hw
    exact F.div_fin_zero_inf q (hnz q hq)
  have hrs_len : rs.length = stocks.length := by
    have hl := congrArg List.length hr
    simp only [Portfolio.trial_ratios, List.length_zipWith, List.length_map] at hl
    rw [hlen, Nat.min_self] at hl
    exact hl.symm
  refine ⟨hweights, (List.range stocks.length).map (fun j =>
    Portfolio.np_mean_col
      (Portfolio.column (trial_draws.map (Portfolio.allocate_once stocks)) j)),
    allocate_mean_eq (Portfolio.init stocks) trial_draws, by simp, ?_⟩
  intro m hm
  obtain ⟨j, hj, rfl⟩ := List.mem_map.mp hm
  have hj2 : j < stocks.length := List.mem_range.mp hj
  apply np_mean_col_not_fin
  have hjrow : j < (Portfolio.allocate_once stocks draws).length := by
    rw [hrow, List.length_map, hrs_len]
    exact hj2
  refine ⟨(Portfolio.allocate_once stocks draws).getD j F.nan, ?_, ?_⟩
  · unfold Portfolio.column
    exact List.mem_map.mpr ⟨Portfolio.allocate_once stocks draws,
      List.mem_map.mpr ⟨draws, hmem, rfl⟩, rfl⟩
  · have hget : (Portfolio.allocate_once stocks draws).getD j F.nan
        ∈ Portfolio.allocate_once stocks draws := by
      rw [List.getD_eq_getElem?_getD, List.getElem?_eq_getElem hjrow]
      exact List.getElem_mem hjrow
    exact hweights _ hget

/-- A draw making the sA value ratio the finite value 1. -/
def dPos : Draw := ⟨0.01, 1, 1⟩

/-- A draw making the sA value ratio the finite value -1. -/
def dNeg : Draw := ⟨-0.01, 1, 1⟩

/-- Witness for C2: two stocks draw value ratios 1 and -1, summing to
0; both weights of the trial and both mean entries are non-finite. -/
theorem C2_degenerate_trial_witness :
    (∀ w ∈ Portfolio.allocate_once stocksW [dPos, dNeg],
      w.isFin = false ∧ w.isNan = false)
    ∧ ∃ ms, ((Portfolio.init stocksW).allocate [[dPos, dNeg]]).mean_allocations
          = some ms
        ∧ ms.length = stocksW.length
        ∧ ∀ m ∈ ms, m.isFin = false :=
  C2_degenerate_trial stocksW [dPos, dNeg] [1, -1] [[dPos, dNeg]]
    (by norm_num [stocksW])
    (by norm_num [stocksW, Portfolio.trial_ratios, Stock.roll_once, sA, dPos, dNeg,
      F.sub, F.mul, F.div, Stock.weighted_average_cost_of_capital,
      Stock.after_tax_historical_cost_of_debt, Stock.cost_of_preferred_equity,
      Stock.cost_of_equity, Stock.total_capital, np_clip])
    (by norm_num)
    (by norm_num)
    (List.mem_singleton.mpr rfl)

end GrowthAlloc
